import Mathlib

/-
Verification of the resumable paginated-fetch pipeline of the
swapneelsingh/web-scraper repository (src/src/scraper/JiraScraper.ts),
as a shallow embedding in Lean 4.

The embedding models the checkpoint record, the retry classifier and
backoff loop configured through axios-retry, the checkpoint store, the
concurrency gate (p-limit plus Promise.all), and the orchestration loop
scrapeProject / scrapeProjects.  Network I/O is modelled by an oracle:
a list of fetch results, one per fetch the loop performs.
-/

namespace WebScraper

/-- Checkpoint record, from JiraScraper.ts lines 52-58. -/
structure Checkpoint where
  project : String
  lastProcessedIndex : Nat
  totalIssues : Nat
  completed : Bool
  timestamp : String
  deriving Repr, DecidableEq

/-- One page returned by the remote search endpoint (JiraApiResponse,
JiraScraper.ts lines 34-39).  The echoed startAt and maxResults fields are
never read by the loop, so only total and the issue list are kept.
The issue type is abstract: the loop treats issues opaquely. -/
structure Page (α : Type) where
  total : Nat
  issues : List α
  deriving Repr, DecidableEq

/-- Outcome of one HTTP attempt as seen by the retry layer: either a
response bearing a status code, or a transport-level failure with no
response at all. -/
inductive HttpOutcome
  | response (status : Nat)
  | transportError
  deriving Repr, DecidableEq

/-- Verdict of the retry classifier (spec section 4.1). -/
inductive Verdict
  | SUCCESS
  | RETRYABLE
  | FATAL
  deriving Repr, DecidableEq

/-- The boolean retry condition from JiraScraper.ts lines 148-155:
isNetworkOrIdempotentRequestError(error) or status 429 or status >= 500.
For a response with status s the library disjunct
isIdempotentRequestError (500 <= s <= 599 on an idempotent method) is
absorbed by the explicit s >= 500 check of the source.
Modelled from the spec: the transport-error branch
(isNetworkOrIdempotentRequestError on an error with no response) is
axios-retry library code, not in this repository; spec section 4.1 states
that a transport-level failure is RETRYABLE. -/
def retryCondition : HttpOutcome → Bool
  | .transportError => true
  | .response s => decide (s = 429 ∨ 500 ≤ s)

/-- Classification of one HTTP attempt.  A 2xx response resolves the
axios promise (default validateStatus), so the retry condition never
runs and the outcome is SUCCESS; any other outcome rejects and is
classified by retryCondition. -/
def classify (o : HttpOutcome) : Verdict :=
  match o with
  | .response s =>
      if 200 ≤ s ∧ s ≤ 299 then .SUCCESS
      else if s = 429 ∨ 500 ≤ s then .RETRYABLE
      else .FATAL
  | .transportError => .RETRYABLE

/-- Fixed delay factor of axiosRetry.exponentialDelay: 100 milliseconds.
One spec time-unit corresponds to this factor. -/
def delayFactor : Nat := 100

/-- Nominal backoff delay of axiosRetry.exponentialDelay for the given
retry number (retry k waits 2 ^ k * 100 ms).  The library adds a uniform
random jitter of up to twenty percent of this value; the jitter term is
abstracted away and only the nominal value is modelled. -/
def exponentialDelay (retryNumber : Nat) : Nat :=
  2 ^ retryNumber * delayFactor

/-- Trace of one fetch through the retry layer: how many attempts were
issued in total and the delays waited before each retry, in order. -/
structure RetryTrace where
  attempts : Nat
  delays : List Nat
  deriving Repr, DecidableEq

/-- The axios-retry attempt loop.  outcomes i is the outcome of attempt
i (0-based).  retriesLeft is retries minus the current retryCount; when
it reaches 0 the library refuses to retry without consulting the retry
condition (retryCount < retries is checked first).  On a RETRYABLE
outcome the loop waits exponentialDelay of the new retryCount and tries
again; on SUCCESS or FATAL it stops. -/
def retryRunAux (outcomes : Nat → HttpOutcome) : Nat → Nat → RetryTrace
  | 0, i => ⟨i + 1, []⟩
  | retriesLeft + 1, i =>
      match classify (outcomes i) with
      | .RETRYABLE =>
          let t := retryRunAux outcomes retriesLeft (i + 1)
          ⟨t.attempts, exponentialDelay (i + 1) :: t.delays⟩
      | _ => ⟨i + 1, []⟩

/-- One fetch through the retry layer with the configured retry ceiling
(JiraScraper.ts line 146: retries: 5). -/
def retryRun (retries : Nat) (outcomes : Nat → HttpOutcome) : RetryTrace :=
  retryRunAux outcomes retries 0

/-- Run statistics of the scraper instance (JiraScraper.ts lines 105-110). -/
structure Stats where
  totalIssues : Nat
  successfulScrapes : Nat
  failedScrapes : Nat
  retriedRequests : Nat
  deriving Repr, DecidableEq

/-- Effect of one evaluation of the retryCondition callback on the run
statistics (JiraScraper.ts lines 148-155): the source increments
stats.retriedRequests unconditionally before computing the condition,
and returns the boolean verdict.  No other statistic is touched. -/
def retryConditionRun (stats : Stats) (o : HttpOutcome) : Stats × Bool :=
  ({ stats with retriedRequests := stats.retriedRequests + 1 }, retryCondition o)

/-- A minimal JSON value type, enough for the checkpoint files written by
JSON.stringify and read back by JSON.parse (JiraScraper.ts 394-409). -/
inductive Json
  | str (s : String)
  | num (n : Int)
  | bool (b : Bool)
  | obj (fields : List (String × Json))

/-- JSON.stringify of a checkpoint record: an object with the five fields
of the Checkpoint interface, in declaration order. -/
def Checkpoint.toJson (c : Checkpoint) : Json :=
  .obj [("project", .str c.project),
        ("lastProcessedIndex", .num c.lastProcessedIndex),
        ("totalIssues", .num c.totalIssues),
        ("completed", .bool c.completed),
        ("timestamp", .str c.timestamp)]

/-- Read a JSON value as a string. -/
def Json.getStr? : Json → Option String
  | .str s => some s
  | _ => none

/-- Read a JSON value as a non-negative integer. -/
def Json.getNat? : Json → Option Nat
  | .num (Int.ofNat n) => some n
  | _ => none

/-- Read a JSON value as a boolean. -/
def Json.getBool? : Json → Option Bool
  | .bool b => some b
  | _ => none

/-- Decode a checkpoint from a parsed JSON value.  Returns none when the
value is not an object carrying the five expected fields (in the source,
JSON.parse would then hand back a value that does not match the
Checkpoint interface). -/
def Checkpoint.fromJson? (j : Json) : Option Checkpoint :=
  match j with
  | .obj fields => do
      let p ← (fields.lookup "project").bind Json.getStr?
      let l ← (fields.lookup "lastProcessedIndex").bind Json.getNat?
      let t ← (fields.lookup "totalIssues").bind Json.getNat?
      let c ← (fields.lookup "completed").bind Json.getBool?
      let ts ← (fields.lookup "timestamp").bind Json.getStr?
      some ⟨p, l, t, c, ts⟩
  | _ => none

/-- The checkpoint directory as a key-value store from project name (the
file name stem) to the JSON content of the file.  A newer save shadows an
older entry, as a file overwrite does. -/
def CheckpointDir : Type := List (String × Json)

/-- saveCheckpoint (JiraScraper.ts 407-410): write the serialized
checkpoint to the file named after the project, overwriting any prior
content. -/
def saveCheckpoint (dir : CheckpointDir) (c : Checkpoint) : CheckpointDir :=
  (c.project, Checkpoint.toJson c) :: dir

/-- loadCheckpoint (JiraScraper.ts 390-405): if the checkpoint file
exists, parse and return its content; otherwise return the zero-state
checkpoint with the current time as timestamp.  Absence never fails. -/
def loadCheckpoint (dir : CheckpointDir) (project : String) (now : String) :
    Option Checkpoint :=
  match List.lookup project dir with
  | some j => Checkpoint.fromJson? j
  | none => some ⟨project, 0, 0, false, now⟩

/-- Observable state of one checkpoint file for the crash analysis of
saveCheckpoint: absent, holding one complete serialized checkpoint, or
corrupt (truncated or part-written, so JSON.parse throws on it). -/
inductive FileState
  | absent
  | full (c : Checkpoint)
  | corrupt
  deriving Repr, DecidableEq

/-- Crash-step model of the plain writeFile call in saveCheckpoint
(JiraScraper.ts line 409).  fs.writeFile with its default w flag first
truncates the file and then writes the new content; there is no
temp-file-plus-rename step.  crashPoint counts the steps completed
before the process dies: 0 = crash before any effect (old content
remains), 1 = crash after truncation but before the content lands
(corrupt file), 2 or more = the write completed. -/
def saveCheckpointCrash (prev : FileState) (c : Checkpoint) (crashPoint : Nat) :
    FileState :=
  if crashPoint = 0 then prev
  else if crashPoint = 1 then .corrupt
  else .full c

/-- loadCheckpoint applied to a file state: an absent file yields the
zero-state, a complete file is parsed back, and a corrupt file makes
JSON.parse throw, which loadCheckpoint does not catch (result none). -/
def readCheckpointFile : FileState → String → String → Option Checkpoint
  | .absent, project, now => some ⟨project, 0, 0, false, now⟩
  | .full c, _, _ => Checkpoint.fromJson? (Checkpoint.toJson c)
  | .corrupt, _, _ => none

/-- Observable trace of one run of scrapeProject over a collection: the
offsets passed to fetchIssues in order, the checkpoints saved in order,
whether the run ended by throwing out of the batch loop, the documents
appended to the output file in order, and how many records degraded to a
null transform result. -/
structure RunTrace (β : Type) where
  fetchOffsets : List Nat
  saves : List Checkpoint
  failed : Bool
  appended : List β
  nullCount : Nat
  deriving Repr, DecidableEq

/-- The per-page transform-and-append step (JiraScraper.ts 207-220):
Promise.all over the limited processIssue calls yields the results in
source order, and the write loop appends every non-null result in that
order. -/
def pageAppend {α β : Type} (f : α → Option β) (issues : List α) : List β :=
  (issues.map f).filterMap id

/-- The while-hasMore batch loop of scrapeProject (JiraScraper.ts
195-245), driven by an oracle list holding the result of each successive
fetch: some page for a successful fetch, none for a fetch whose retries
were exhausted or that failed fatally (the loop rethrows).  An exhausted
oracle is read as a fetch that returned an empty page.  Each iteration
fetches at startAt, stops on an empty page, otherwise transforms and
appends the page through pageAppend, advances startAt by the page
length, saves a checkpoint whose completed flag is startAt >= total, and
continues while startAt < total. -/
def scrapeLoop {α β : Type} (project : String) (f : α → Option β)
    (ts : Nat → String) :
    List (Option (Page α)) → Nat → Nat → RunTrace β
  | [], startAt, _ => ⟨[startAt], [], false, [], 0⟩
  | none :: _, startAt, _ => ⟨[startAt], [], true, [], 0⟩
  | some pg :: rest, startAt, batch =>
      if pg.issues.length = 0 then ⟨[startAt], [], false, [], 0⟩
      else
        let docs := pageAppend f pg.issues
        let nulls := (pg.issues.map f).countP (fun r => r.isNone)
        let newStart := startAt + pg.issues.length
        let cp : Checkpoint :=
          ⟨project, newStart, pg.total, decide (pg.total ≤ newStart), ts batch⟩
        if newStart < pg.total then
          let t := scrapeLoop project f ts rest newStart (batch + 1)
          ⟨startAt :: t.fetchOffsets, cp :: t.saves, t.failed,
            docs ++ t.appended, nulls + t.nullCount⟩
        else
          ⟨[startAt], [cp], false, docs, nulls⟩

/-- scrapeProject (JiraScraper.ts 180-248) from a loaded checkpoint: a
completed checkpoint is skipped outright; otherwise the batch loop runs
from the checkpoint offset. -/
def scrapeProjectRun {α β : Type} (f : α → Option β) (ts : Nat → String)
    (cp : Checkpoint) (resps : List (Option (Page α))) : RunTrace β :=
  if cp.completed then ⟨[], [], false, [], 0⟩
  else scrapeLoop cp.project f ts resps cp.lastProcessedIndex 0

/-- Observable events of one whole run of scrapeProjects: one attempt
event per collection in iteration order, carrying whether that
collection ended in failure, followed by the final statistics report
(printStats). -/
inductive RunEvent
  | attempt (project : String) (failed : Bool)
  | statsReport (successes : Nat) (failures : Nat)
  deriving Repr, DecidableEq

/-- scrapeProjects (JiraScraper.ts 165-178): iterate the configured
collections in order, each wrapped in try-catch so a failure is caught
and logged and the loop continues, then print the aggregate statistics
unconditionally. -/
def scrapeProjectsRun {α β : Type} (f : α → Option β) (ts : Nat → String)
    (projects : List String) (cps : String → Checkpoint)
    (oracle : String → List (Option (Page α))) : List RunEvent :=
  let traces := projects.map fun p => (p, scrapeProjectRun f ts (cps p) (oracle p))
  (traces.map fun pt => RunEvent.attempt pt.1 pt.2.failed) ++
    [RunEvent.statsReport (traces.map fun pt => pt.2.appended.length).sum
      (traces.map fun pt => pt.2.nullCount).sum]

/-- The projects attempted during a run, read off the event trace. -/
def attemptedProjects (evs : List RunEvent) : List String :=
  evs.filterMap fun e =>
    match e with
    | .attempt p _ => some p
    | _ => none

/-- Scheduler events of the p-limit concurrency gate: task i starts
executing, or task i finishes. -/
inductive GEvent
  | start (i : Nat)
  | finish (i : Nat)
  deriving Repr, DecidableEq

/-- One admissible scheduler step of the gate.  p-limit starts tasks in
submission order (so the next start must be task number started) and
only while fewer than maxInFlight tasks are running; any running task
may finish.  The state is (number of tasks started so far, indices
currently in flight). -/
def gateStep (maxInFlight : Nat) (started : Nat) (running : List Nat) :
    GEvent → Option (Nat × List Nat)
  | .start i =>
      if i = started ∧ running.length < maxInFlight then
        some (started + 1, i :: running)
      else none
  | .finish i =>
      if i ∈ running then some (started, running.erase i) else none

/-- Run a list of scheduler events from a gate state; none when some
event is not admissible. -/
def execRun (maxInFlight : Nat) :
    List GEvent → Nat → List Nat → Option (Nat × List Nat)
  | [], started, running => some (started, running)
  | e :: es, started, running =>
      match gateStep maxInFlight started running e with
      | some sr => execRun maxInFlight es sr.1 sr.2
      | none => none

/-- A complete admissible execution of numTasks tasks under the gate:
every step is admissible, all tasks get started, and none is left in
flight at the end. -/
def execOk (maxInFlight numTasks : Nat) (es : List GEvent) : Prop :=
  execRun maxInFlight es 0 [] = some (numTasks, [])

instance (m n : Nat) (es : List GEvent) : Decidable (execOk m n es) :=
  inferInstanceAs (Decidable (execRun m es 0 [] = some (n, [])))

/-- The value produced by a finish event: the transform applied to the
source record of that index.  Transforms are pure, so the value depends
only on the index, never on the schedule. -/
def taskResult {α β : Type} (f : α → Option β) (tasks : List α) :
    GEvent → Option (Nat × Option β)
  | .finish i => (tasks.get? i).map fun a => (i, f a)
  | .start _ => none

/-- The (index, result) pairs produced by an execution, in completion
order. -/
def execOutputs {α β : Type} (f : α → Option β) (tasks : List α)
    (es : List GEvent) : List (Nat × Option β) :=
  es.filterMap (taskResult f tasks)

/-- Promise.all gathers the results back by task index, regardless of
the completion order. -/
def gatherByIndex {β : Type} (n : Nat) (outs : List (Nat × Option β)) :
    List (Option β) :=
  (List.range n).map fun i =>
    ((outs.find? fun pr => pr.1 == i).map Prod.snd).getD none

/-- The documents appended after running one page through the gate under
the given schedule: gather the results by index and append the non-null
ones in index order (JiraScraper.ts 207-220). -/
def gateAppend {α β : Type} (f : α → Option β) (tasks : List α)
    (es : List GEvent) : List β :=
  (gatherByIndex tasks.length (execOutputs f tasks es)).filterMap id

theorem Checkpoint.fromJson_toJson (c : Checkpoint) :
    Checkpoint.fromJson? (Checkpoint.toJson c) = some c := rfl

/-- C6: load after save of a checkpoint C returns a value deep-equal to C,
and load of a collection with no prior checkpoint returns the zero-state
with the current time, without failing. -/
theorem checkpoint_save_load_roundtrip :
    (∀ (dir : CheckpointDir) (c : Checkpoint) (now : String),
        loadCheckpoint (saveCheckpoint dir c) c.project now = some c) ∧
    (∀ (dir : CheckpointDir) (p now : String),
        List.lookup p dir = none →
        loadCheckpoint dir p now = some ⟨p, 0, 0, false, now⟩) := by
  constructor
  · intro dir c now
    simp [loadCheckpoint, saveCheckpoint, List.lookup, Checkpoint.fromJson_toJson]
  · intro dir p now h
    simp [loadCheckpoint, h]

/-- Witness for C6 at concrete inputs. -/
theorem checkpoint_save_load_roundtrip_witness :
    loadCheckpoint (saveCheckpoint [] ⟨"HADOOP", 100, 1000, false, "t0"⟩)
        "HADOOP" "t1" = some ⟨"HADOOP", 100, 1000, false, "t0"⟩ ∧
    loadCheckpoint [] "KAFKA" "t2" = some ⟨"KAFKA", 0, 0, false, "t2"⟩ :=
  ⟨checkpoint_save_load_roundtrip.1 [] ⟨"HADOOP", 100, 1000, false, "t0"⟩ "t1",
   checkpoint_save_load_roundtrip.2 [] "KAFKA" "t2" rfl⟩

/-- C7: the claim demands save to be atomic with respect to process
crash; the source writes the checkpoint with a plain writeFile (truncate
then write, no temp-file-plus-rename), so a crash after the truncation
leaves a corrupt file, and a subsequent load returns neither the
previous nor the new complete checkpoint: JSON.parse throws.  This
evaluates the crash model at that failing input. -/
theorem saveCheckpoint_not_crash_atomic :
    saveCheckpointCrash (.full ⟨"HADOOP", 100, 250, false, "t0"⟩)
        ⟨"HADOOP", 200, 250, false, "t1"⟩ 1 = .corrupt ∧
    readCheckpointFile
        (saveCheckpointCrash (.full ⟨"HADOOP", 100, 250, false, "t0"⟩)
          ⟨"HADOOP", 200, 250, false, "t1"⟩ 1) "HADOOP" "t2" = none ∧
    (none : Option Checkpoint) ≠ some ⟨"HADOOP", 100, 250, false, "t0"⟩ ∧
    (none : Option Checkpoint) ≠ some ⟨"HADOOP", 200, 250, false, "t1"⟩ := by
  refine ⟨rfl, rfl, ?_, ?_⟩ <;> simp

/-- C3: the retry classification table of the source: 429 and every
status at or above 500 (and transport-level failures) are retryable,
every status in [400,499] other than 429 is fatal, statuses in [200,299]
succeed, and a 404 produces a run of exactly one attempt, hence zero
retries. -/
theorem classification_table :
    (∀ s : Nat, 200 ≤ s → s ≤ 299 → classify (.response s) = .SUCCESS) ∧
    classify .transportError = .RETRYABLE ∧
    classify (.response 429) = .RETRYABLE ∧
    (∀ s : Nat, 500 ≤ s → classify (.response s) = .RETRYABLE) ∧
    (∀ s : Nat, 400 ≤ s → s ≤ 499 → s ≠ 429 → classify (.response s) = .FATAL) ∧
    retryRun 5 (fun _ => .response 404) = ⟨1, []⟩ := by
  refine ⟨?_, rfl, by decide, ?_, ?_, by decide⟩
  · intro s h1 h2
    simp only [classify]
    split_ifs with hA hB
    · rfl
    · exact absurd ⟨h1, h2⟩ hA
    · exact absurd ⟨h1, h2⟩ hA
  · intro s h
    simp only [classify]
    split_ifs with hA hB
    · exfalso; omega
    · rfl
    · exfalso; omega
  · intro s h1 h2 h3
    simp only [classify]
    split_ifs with hA hB
    · exfalso; omega
    · exfalso; omega
    · rfl

/-- Witness for C3 at concrete statuses. -/
theorem classification_table_witness :
    classify (.response 204) = .SUCCESS ∧
    classify (.response 503) = .RETRYABLE ∧
    classify (.response 404) = .FATAL :=
  ⟨classification_table.1 204 (by decide) (by decide),
   classification_table.2.2.2.1 503 (by decide),
   classification_table.2.2.2.2.1 404 (by decide) (by decide) (by decide)⟩

theorem retryRunAux_spec (outcomes : Nat → HttpOutcome) :
    ∀ (fuel i : Nat),
      i + 1 ≤ (retryRunAux outcomes fuel i).attempts ∧
      (retryRunAux outcomes fuel i).attempts ≤ i + fuel + 1 ∧
      (retryRunAux outcomes fuel i).delays =
        (List.range ((retryRunAux outcomes fuel i).attempts - (i + 1))).map
          (fun j => exponentialDelay (i + j + 1)) := by
  intro fuel
  induction fuel with
  | zero =>
    intro i
    refine ⟨le_refl _, by simp [retryRunAux], by simp [retryRunAux]⟩
  | succ n ih =>
    intro i
    simp only [retryRunAux]
    cases hc : classify (outcomes i) with
    | RETRYABLE =>
      simp only []
      obtain ⟨h1, h2, h3⟩ := ih (i + 1)
      refine ⟨by omega, by omega, ?_⟩
      simp only [h3]
      have ha : (retryRunAux outcomes n (i + 1)).attempts - (i + 1) =
          ((retryRunAux outcomes n (i + 1)).attempts - (i + 2)) + 1 := by omega
      rw [ha, List.range_succ_eq_map, List.map_cons, List.map_map]
      refine congrArg₂ _ (by simp) ?_
      refine List.map_congr_left fun j _ => ?_
      simp only [Function.comp]
      congr 1
      omega
    | SUCCESS =>
      refine ⟨le_refl _, ?_, ?_⟩
      · show i + 1 ≤ i + (n + 1) + 1
        omega
      · show ([] : List Nat) =
          (List.range ((i + 1) - (i + 1))).map fun j => exponentialDelay (i + j + 1)
        simp
    | FATAL =>
      refine ⟨le_refl _, ?_, ?_⟩
      · show i + 1 ≤ i + (n + 1) + 1
        omega
      · show ([] : List Nat) =
          (List.range ((i + 1) - (i + 1))).map fun j => exponentialDelay (i + j + 1)
        simp

/-- C4 counterexample: with every attempt failing retryably, the
configuration retries: 5 performs five retries after the initial
attempt, i.e. six attempts in total, refuting that a 6th attempt never
occurs; the nominal delays (in milliseconds, delay factor 100) before
attempts 2..6 are 2, 4, 8, 16 and 32 time-units. -/
theorem sixth_attempt_occurs :
    retryRun 5 (fun _ => .response 500) = ⟨6, [200, 400, 800, 1600, 3200]⟩ ∧
    (retryRun 5 (fun _ => .response 500)).attempts ≠ 5 := by
  exact ⟨by decide, by decide⟩

/-- C4 amended: for every sequence of outcomes, the nominal delay before
retry attempt k (counted from 1) is 2 * 2 ^ (k-1) time-units of the
100 ms delay factor, at most six attempts ever occur (one initial
attempt plus the configured five retries, so a 7th attempt never
occurs), and an all-retryable run shows delays 2, 4, 8, 16, 32 units
before attempts 2..6. -/
theorem backoff_schedule (outcomes : Nat → HttpOutcome) :
    (retryRun 5 outcomes).attempts ≤ 6 ∧
    (retryRun 5 outcomes).delays =
      (List.range ((retryRun 5 outcomes).attempts - 1)).map
        (fun j => 2 * 2 ^ j * delayFactor) ∧
    (retryRun 5 (fun _ => .transportError)).delays =
      [2, 4, 8, 16, 32].map (fun u => u * delayFactor) ∧
    (retryRun 5 (fun _ => .transportError)).attempts = 6 := by
  obtain ⟨h1, h2, h3⟩ := retryRunAux_spec outcomes 5 0
  refine ⟨by simpa [retryRun] using h2, ?_, by decide, by decide⟩
  simp only [retryRun] at h3 ⊢
  rw [h3]
  refine List.map_congr_left fun j _ => ?_
  simp only [exponentialDelay, Nat.zero_add]
  ring

/-- C10 counterexample: evaluating the retry condition on a 404, whose
verdict is not retryable, still increments the retried-requests counter
(the source increments it before computing the verdict), refuting that a
fatal classification leaves the counter unchanged. -/
theorem fatal_classification_increments_counter :
    retryConditionRun ⟨0, 0, 0, 0⟩ (.response 404) = (⟨0, 0, 0, 1⟩, false) ∧
    (retryConditionRun ⟨0, 0, 0, 0⟩ (.response 404)).1.retriedRequests ≠ 0 :=
  ⟨rfl, by decide⟩

/-- C10 amended: evaluating the retry condition touches no statistic
other than the retried-requests counter, and that counter is incremented
on every evaluation, regardless of the verdict (in particular also when
the verdict is fatal). -/
theorem retryCondition_stats_frame (stats : Stats) (o : HttpOutcome) :
    (retryConditionRun stats o).1.retriedRequests = stats.retriedRequests + 1 ∧
    (retryConditionRun stats o).1.totalIssues = stats.totalIssues ∧
    (retryConditionRun stats o).1.successfulScrapes = stats.successfulScrapes ∧
    (retryConditionRun stats o).1.failedScrapes = stats.failedScrapes ∧
    (retryConditionRun stats o).2 = retryCondition o :=
  ⟨rfl, rfl, rfl, rfl, rfl⟩

theorem scrapeLoop_offsets {α β : Type} (project : String) (f : α → Option β)
    (ts : Nat → String) :
    ∀ (resps : List (Option (Page α))) (startAt batch : Nat),
      (scrapeLoop project f ts resps startAt batch).fetchOffsets.head? =
          some startAt ∧
      List.Chain' (· ≤ ·) (scrapeLoop project f ts resps startAt batch).fetchOffsets ∧
      ∀ o ∈ (scrapeLoop project f ts resps startAt batch).fetchOffsets,
        startAt ≤ o := by
  intro resps
  induction resps with
  | nil =>
    intro startAt batch
    refine ⟨rfl, by simp [scrapeLoop], ?_⟩
    intro o ho
    simp [scrapeLoop] at ho
    omega
  | cons head rest ih =>
    intro startAt batch
    match head with
    | none =>
      refine ⟨rfl, by simp [scrapeLoop], ?_⟩
      intro o ho
      simp [scrapeLoop] at ho
      omega
    | some pg =>
      simp only [scrapeLoop]
      by_cases h0 : pg.issues.length = 0
      · rw [if_pos h0]
        refine ⟨rfl, by simp, ?_⟩
        intro o ho
        simp at ho
        omega
      · rw [if_neg h0]
        by_cases hm : startAt + pg.issues.length < pg.total
        · rw [if_pos hm]
          obtain ⟨ihh, ihc, ihb⟩ := ih (startAt + pg.issues.length) (batch + 1)
          refine ⟨rfl, ?_, ?_⟩
          · simp only []
            rw [List.chain'_cons']
            refine ⟨?_, ihc⟩
            intro b hb
            rw [ihh] at hb
            simp at hb
            omega
          · intro o ho
            simp only [List.mem_cons] at ho
            rcases ho with ho | ho
            · omega
            · have := ihb o ho
              omega
        · rw [if_neg hm]
          refine ⟨rfl, by simp, ?_⟩
          intro o ho
          simp at ho
          omega

/-- C1: a collection resumed from a checkpoint with lastProcessedIndex k
(k positive, not completed) issues its first fetch at offset k, never at
0, and the offsets passed to fetchIssues are monotonically
non-decreasing (hence never below k) across the batches of the run. -/
theorem resume_fetch_offsets {α β : Type} (p tss : String) (k tot : Nat)
    (hk : 0 < k) (f : α → Option β) (ts : Nat → String)
    (resps : List (Option (Page α))) :
    (scrapeProjectRun f ts ⟨p, k, tot, false, tss⟩ resps).fetchOffsets.head? =
        some k ∧
    (scrapeProjectRun f ts ⟨p, k, tot, false, tss⟩ resps).fetchOffsets.head? ≠
        some 0 ∧
    List.Chain' (· ≤ ·)
      (scrapeProjectRun f ts ⟨p, k, tot, false, tss⟩ resps).fetchOffsets ∧
    ∀ o ∈ (scrapeProjectRun f ts ⟨p, k, tot, false, tss⟩ resps).fetchOffsets,
      k ≤ o := by
  have h := scrapeLoop_offsets p f ts resps k 0
  have hrun : scrapeProjectRun f ts ⟨p, k, tot, false, tss⟩ resps =
      scrapeLoop p f ts resps k 0 := by
    simp [scrapeProjectRun]
  rw [hrun]
  refine ⟨h.1, ?_, h.2.1, h.2.2⟩
  rw [h.1]
  simp
  omega

/-- Witness for C1: resuming from lastProcessedIndex 100 over a
collection of 250 records. -/
theorem resume_fetch_offsets_witness :
    (scrapeProjectRun (fun _ : Unit => some ()) (fun _ => "t")
        ⟨"HADOOP", 100, 250, false, "t0"⟩
        [some ⟨250, List.replicate 100 ()⟩,
         some ⟨250, List.replicate 50 ()⟩]).fetchOffsets.head? = some 100 ∧
    (scrapeProjectRun (fun _ : Unit => some ()) (fun _ => "t")
        ⟨"HADOOP", 100, 250, false, "t0"⟩
        [some ⟨250, List.replicate 100 ()⟩,
         some ⟨250, List.replicate 50 ()⟩]).fetchOffsets.head? ≠ some 0 ∧
    List.Chain' (· ≤ ·)
      (scrapeProjectRun (fun _ : Unit => some ()) (fun _ => "t")
        ⟨"HADOOP", 100, 250, false, "t0"⟩
        [some ⟨250, List.replicate 100 ()⟩,
         some ⟨250, List.replicate 50 ()⟩]).fetchOffsets ∧
    ∀ o ∈ (scrapeProjectRun (fun _ : Unit => some ()) (fun _ => "t")
        ⟨"HADOOP", 100, 250, false, "t0"⟩
        [some ⟨250, List.replicate 100 ()⟩,
         some ⟨250, List.replicate 50 ()⟩]).fetchOffsets, 100 ≤ o :=
  resume_fetch_offsets "HADOOP" "t0" 100 250 (by decide)
    (fun _ : Unit => some ()) (fun _ => "t")
    [some ⟨250, List.replicate 100 ()⟩, some ⟨250, List.replicate 50 ()⟩]

/-- C2: a zero-state run over a remote reporting 250 total records with
pages of 100, 100 and 50 performs exactly three fetches (at offsets 0,
100 and 200), saves exactly three checkpoints with cursor values 100,
200 and 250 in that order, and only the third save carries
completed = true. -/
theorem scrape_250_by_100_scenario :
    (scrapeProjectRun (fun _ : Unit => some ()) (fun _ => "t")
        ⟨"KAFKA", 0, 0, false, "t0"⟩
        [some ⟨250, List.replicate 100 ()⟩, some ⟨250, List.replicate 100 ()⟩,
         some ⟨250, List.replicate 50 ()⟩]).fetchOffsets = [0, 100, 200] ∧
    (scrapeProjectRun (fun _ : Unit => some ()) (fun _ => "t")
        ⟨"KAFKA", 0, 0, false, "t0"⟩
        [some ⟨250, List.replicate 100 ()⟩, some ⟨250, List.replicate 100 ()⟩,
         some ⟨250, List.replicate 50 ()⟩]).saves.length = 3 ∧
    (scrapeProjectRun (fun _ : Unit => some ()) (fun _ => "t")
        ⟨"KAFKA", 0, 0, false, "t0"⟩
        [some ⟨250, List.replicate 100 ()⟩, some ⟨250, List.replicate 100 ()⟩,
         some ⟨250, List.replicate 50 ()⟩]).saves.map
          (fun c => c.lastProcessedIndex) = [100, 200, 250] ∧
    (scrapeProjectRun (fun _ : Unit => some ()) (fun _ => "t")
        ⟨"KAFKA", 0, 0, false, "t0"⟩
        [some ⟨250, List.replicate 100 ()⟩, some ⟨250, List.replicate 100 ()⟩,
         some ⟨250, List.replicate 50 ()⟩]).saves.map
          (fun c => c.completed) = [false, false, true] ∧
    (scrapeProjectRun (fun _ : Unit => some ()) (fun _ => "t")
        ⟨"KAFKA", 0, 0, false, "t0"⟩
        [some ⟨250, List.replicate 100 ()⟩, some ⟨250, List.replicate 100 ()⟩,
         some ⟨250, List.replicate 50 ()⟩]).failed = false := by
  refine ⟨by decide, by decide, by decide, by decide, by decide⟩

theorem scrapeLoop_saves_completed {α β : Type} (project : String)
    (f : α → Option β) (ts : Nat → String) :
    ∀ (resps : List (Option (Page α))) (startAt batch : Nat),
      ∀ cp ∈ (scrapeLoop project f ts resps startAt batch).saves,
        cp.completed = decide (cp.totalIssues ≤ cp.lastProcessedIndex) := by
  intro resps
  induction resps with
  | nil =>
    intro startAt batch cp hcp
    simp [scrapeLoop] at hcp
  | cons head rest ih =>
    intro startAt batch cp hcp
    match head with
    | none => simp [scrapeLoop] at hcp
    | some pg =>
      simp only [scrapeLoop] at hcp
      by_cases h0 : pg.issues.length = 0
      · rw [if_pos h0] at hcp
        simp at hcp
      · rw [if_neg h0] at hcp
        by_cases hm : startAt + pg.issues.length < pg.total
        · rw [if_pos hm] at hcp
          simp only [List.mem_cons] at hcp
          rcases hcp with hcp | hcp
          · subst hcp; rfl
          · exact ih (startAt + pg.issues.length) (batch + 1) cp hcp
        · rw [if_neg hm] at hcp
          simp only [List.mem_singleton] at hcp
          subst hcp; rfl

/-- C5 amended: after every checkpoint save the saved record satisfies
completed = true exactly when lastProcessedIndex is at least the
totalRecords value of that same save; the further conjunct of the claim,
that some totalRecords value greater than 0 was observed, is not
enforced by the source (see the counterexample with a remote reporting
total 0 alongside a non-empty page). -/
theorem saved_checkpoint_completed_iff {α β : Type} (f : α → Option β)
    (ts : Nat → String) (cp0 : Checkpoint) (resps : List (Option (Page α)))
    (cp : Checkpoint)
    (hcp : cp ∈ (scrapeProjectRun f ts cp0 resps).saves) :
    cp.completed = true ↔ cp.totalIssues ≤ cp.lastProcessedIndex := by
  unfold scrapeProjectRun at hcp
  by_cases hc : cp0.completed
  · simp [hc] at hcp
  · rw [if_neg (by simp [hc])] at hcp
    have h := scrapeLoop_saves_completed cp0.project f ts resps
      cp0.lastProcessedIndex 0 cp hcp
    rw [h]
    simp

/-- Witness for the amended C5 at a concrete completed save. -/
theorem saved_checkpoint_completed_iff_witness :
    (⟨"HADOOP", 3, 3, true, "t1"⟩ : Checkpoint).completed = true ↔
      (⟨"HADOOP", 3, 3, true, "t1"⟩ : Checkpoint).totalIssues ≤
        (⟨"HADOOP", 3, 3, true, "t1"⟩ : Checkpoint).lastProcessedIndex :=
  saved_checkpoint_completed_iff (fun _ : Unit => some ()) (fun _ => "t1")
    ⟨"HADOOP", 0, 0, false, "t0"⟩ [some ⟨3, [(), (), ()]⟩]
    ⟨"HADOOP", 3, 3, true, "t1"⟩ (by decide)

/-- C5 counterexample: with a remote response reporting total 0 together
with a non-empty page, the single save carries completed = true and
totalRecords = 0, although a totalRecords value greater than 0 was never
observed during the run — refuting the claim as stated. -/
theorem completed_without_positive_total :
    (scrapeProjectRun (fun _ : Unit => some ()) (fun _ => "t1")
        ⟨"SPARK", 0, 0, false, "t0"⟩ [some ⟨0, [()]⟩]).saves =
      [⟨"SPARK", 1, 0, true, "t1"⟩] := by decide

theorem attemptedProjects_concat_stats (evs : List RunEvent) (s fl : Nat) :
    attemptedProjects (evs ++ [RunEvent.statsReport s fl]) =
      attemptedProjects evs := by
  simp [attemptedProjects, List.filterMap_append]

theorem attemptedProjects_attempts {γ : Type} (h : γ → String) (g : γ → Bool)
    (l : List γ) :
    attemptedProjects (l.map fun x => RunEvent.attempt (h x) (g x)) =
      l.map h := by
  induction l with
  | nil => rfl
  | cons x xs ih =>
    simp only [attemptedProjects, List.map_cons, List.filterMap_cons] at *
    rw [ih]

/-- C9: a failure inside one collection is caught at the per-collection
boundary, so every configured collection is attempted in order no matter
which collections fail, and the run always ends with the aggregate
statistics report. -/
theorem project_failure_isolated {α β : Type} (f : α → Option β)
    (ts : Nat → String) (projects : List String) (cps : String → Checkpoint)
    (oracle : String → List (Option (Page α))) :
    attemptedProjects (scrapeProjectsRun f ts projects cps oracle) = projects ∧
    ∃ s fl, (scrapeProjectsRun f ts projects cps oracle).getLast? =
      some (.statsReport s fl) := by
  constructor
  · unfold scrapeProjectsRun
    rw [attemptedProjects_concat_stats,
      attemptedProjects_attempts (γ := String × RunTrace β)
        (fun pt => pt.1) (fun pt => pt.2.failed)
        (projects.map fun p => (p, scrapeProjectRun f ts (cps p) (oracle p)))]
    rw [List.map_map]
    show List.map id projects = projects
    exact List.map_id projects
  · unfold scrapeProjectsRun
    exact ⟨_, _, List.getLast?_concat _⟩

theorem execRun_finish_mem (m : Nat) :
    ∀ (es : List GEvent) (s : Nat) (r : List Nat) (s2 : Nat) (r2 : List Nat),
      execRun m es s r = some (s2, r2) →
      ∀ j, j < s2 → j ∉ r2 → (GEvent.finish j ∈ es ∨ (j < s ∧ j ∉ r)) := by
  intro es
  induction es with
  | nil =>
    intro s r s2 r2 h j hj hr
    simp only [execRun, Option.some.injEq, Prod.mk.injEq] at h
    obtain ⟨h1, h2⟩ := h
    subst h1; subst h2
    exact Or.inr ⟨hj, hr⟩
  | cons e rest ih =>
    intro s r s2 r2 h j hj hr
    simp only [execRun] at h
    cases e with
    | start i =>
      simp only [gateStep] at h
      by_cases hc : i = s ∧ r.length < m
      · rw [if_pos hc] at h
        simp only [] at h
        have := ih (s + 1) (i :: r) s2 r2 h j hj hr
        rcases this with hmem | ⟨hjs, hjr⟩
        · exact Or.inl (List.mem_cons_of_mem _ hmem)
        · have hji : j ≠ i := fun he => hjr (he ▸ List.mem_cons_self i r)
          refine Or.inr ⟨?_, fun hmem => hjr (List.mem_cons_of_mem _ hmem)⟩
          obtain ⟨hi, _⟩ := hc
          omega
      · rw [if_neg hc] at h
        exact absurd h (by simp)
    | finish i =>
      simp only [gateStep] at h
      by_cases hc : i ∈ r
      · rw [if_pos hc] at h
        simp only [] at h
        have := ih s (r.erase i) s2 r2 h j hj hr
        rcases this with hmem | ⟨hjs, hjr⟩
        · exact Or.inl (List.mem_cons_of_mem _ hmem)
        · by_cases hji : j = i
          · subst hji
            exact Or.inl (List.mem_cons_self _ _)
          · exact Or.inr ⟨hjs, fun hm => hjr ((List.mem_erase_of_ne hji).mpr hm)⟩
      · rw [if_neg hc] at h
        exact absurd h (by simp)

theorem execOk_finish_mem (m n : Nat) (es : List GEvent) (h : execOk m n es) :
    ∀ j, j < n → GEvent.finish j ∈ es := by
  intro j hj
  have := execRun_finish_mem m es 0 [] n [] h j hj (by simp)
  rcases this with hmem | ⟨hj0, _⟩
  · exact hmem
  · omega

theorem execOutputs_mem {α β : Type} (f : α → Option β) (tasks : List α)
    (es : List GEvent) (p : Nat × Option β) (hp : p ∈ execOutputs f tasks es) :
    ∃ a, tasks.get? p.1 = some a ∧ p.2 = f a := by
  unfold execOutputs at hp
  obtain ⟨e, he, hres⟩ := List.mem_filterMap.mp hp
  cases e with
  | start i => simp [taskResult] at hres
  | finish i =>
    simp only [taskResult, Option.map_eq_some'] at hres
    obtain ⟨a, ha, hpa⟩ := hres
    refine ⟨a, ?_, ?_⟩
    · rw [← hpa]; exact ha
    · rw [← hpa]

theorem gatherByIndex_exec {α β : Type} (f : α → Option β) (tasks : List α)
    (es : List GEvent)
    (hfin : ∀ j, j < tasks.length → GEvent.finish j ∈ es) :
    gatherByIndex tasks.length (execOutputs f tasks es) = tasks.map f := by
  unfold gatherByIndex
  apply List.ext_getElem
  · simp
  · intro i h1 h2
    simp only [List.getElem_map, List.getElem_range]
    have hi : i < tasks.length := by simpa using h2
    have hmem : ((i, f tasks[i]) : Nat × Option β) ∈ execOutputs f tasks es := by
      unfold execOutputs
      refine List.mem_filterMap.mpr ⟨GEvent.finish i, hfin i hi, ?_⟩
      simp [taskResult, List.get?_eq_getElem?, List.getElem?_eq_getElem hi]
    have hsome : ((execOutputs f tasks es).find? fun pr => pr.1 == i).isSome := by
      rw [List.find?_isSome]
      exact ⟨_, hmem, by simp⟩
    obtain ⟨p, hp⟩ := Option.isSome_iff_exists.mp hsome
    have hpc := List.find?_some hp
    have hpm := List.mem_of_find?_eq_some hp
    obtain ⟨a, ha1, ha2⟩ := execOutputs_mem f tasks es p hpm
    have hp1 : p.1 = i := by simpa using hpc
    rw [hp]
    simp only [Option.map_some', Option.getD_some]
    rw [ha2]
    rw [hp1] at ha1
    rw [List.get?_eq_getElem?, List.getElem?_eq_getElem hi] at ha1
    simp only [Option.some.injEq] at ha1
    rw [ha1]

/-- C8: for a page of pure transforms, any complete admissible execution
of the gate with maxInFlight between 1 and the page length yields, after
gathering results by index and appending the non-null ones, exactly the
ordered output of the sequential reference used by the batch loop, and
hence the same output as any execution with maxInFlight equal to the
page length. -/
theorem gate_order_refinement {α β : Type} (f : α → Option β) (tasks : List α)
    (m : Nat) (es esN : List GEvent) (h1 : 1 ≤ m) (h2 : m ≤ tasks.length)
    (hm : execOk m tasks.length es)
    (hN : execOk tasks.length tasks.length esN) :
    gateAppend f tasks es = pageAppend f tasks ∧
    gateAppend f tasks es = gateAppend f tasks esN := by
  have key : ∀ (mm : Nat) (ev : List GEvent), execOk mm tasks.length ev →
      gateAppend f tasks ev = pageAppend f tasks := by
    intro mm ev hok
    unfold gateAppend pageAppend
    rw [gatherByIndex_exec f tasks ev (execOk_finish_mem mm tasks.length ev hok)]
  exact ⟨key m es hm, by rw [key m es hm, key tasks.length esN hN]⟩

/-- Witness for C8: three tasks, one degrading to null, run once
sequentially (maxInFlight 1) and once fully concurrently with
out-of-order completion; both appended outputs equal the sequential
reference. -/
theorem gate_order_refinement_witness :
    gateAppend (fun n : Nat => if n = 2 then none else some n) [1, 2, 3]
        [.start 0, .finish 0, .start 1, .finish 1, .start 2, .finish 2] =
      pageAppend (fun n : Nat => if n = 2 then none else some n) [1, 2, 3] ∧
    gateAppend (fun n : Nat => if n = 2 then none else some n) [1, 2, 3]
        [.start 0, .finish 0, .start 1, .finish 1, .start 2, .finish 2] =
      gateAppend (fun n : Nat => if n = 2 then none else some n) [1, 2, 3]
        [.start 0, .start 1, .start 2, .finish 2, .finish 0, .finish 1] :=
  gate_order_refinement (fun n : Nat => if n = 2 then none else some n)
    [1, 2, 3] 1
    [.start 0, .finish 0, .start 1, .finish 1, .start 2, .finish 2]
    [.start 0, .start 1, .start 2, .finish 2, .finish 0, .finish 1]
    (by decide) (by decide) (by decide) (by decide)

end WebScraper
